import Mathlib

/-!
# Verification of the `onderland-pdf` card-number extractor

Shallow embedding of `src/pdf_to_text.py`.

Strings are modelled as `List Char` (`PyStr`).  The Python string
primitives the program uses (`str.splitlines`, `str.split`, `str.strip`,
`str.replace('-','')`, `str.lstrip('0')`, `in`, `startswith`, `endswith`,
`pathlib.Path(...).name`) are embedded as executable list functions, and
the program's functions (`extract_card_numbers_from_text`, the extraction
fallback chain and per-document loop of `pdf_to_text`, and the
`PDFEventHandler` callbacks) are translated on top of them.
-/

/-- Python strings, modelled as lists of characters. -/
abbrev PyStr := List Char

/-- Python's `str.isspace` character class, restricted to the ASCII
whitespace characters (space, tab, newline, carriage return, vertical
tab, form feed).  Used by `str.strip()` and `str.split()` with no
arguments. -/
def pyIsSpace (c : Char) : Bool :=
  c = ' ' || c = '\t' || c = '\n' || c = '\r' || c = '\x0b' || c = '\x0c'

/-- Python's `str.isdigit` for a character, restricted to ASCII: `'0'..'9'`. -/
def pyIsDigit (c : Char) : Bool :=
  c.isDigit

/-- `not s.strip()` in Python: the string is empty or consists solely of
whitespace characters. -/
def pyIsBlank (s : PyStr) : Bool :=
  s.all pyIsSpace

/-- Characters that `str.splitlines` treats as line boundaries
(`\r\n` is additionally treated as a single boundary by `pySplitlines`). -/
def isLineBreakChar (c : Char) : Bool :=
  c = '\n' || c = '\r' || c = '\x0b' || c = '\x0c' || c = '\x1c' ||
  c = '\x1d' || c = '\x1e' || c = '\x85' || c = '\u2028' || c = '\u2029'

/-- Worker for `pySplitlines`; `acc` holds the current line, reversed. -/
def pySplitlinesAux : PyStr → PyStr → List PyStr
  | [], acc => if acc.isEmpty then [] else [acc.reverse]
  | '\r' :: '\n' :: rest, acc => acc.reverse :: pySplitlinesAux rest []
  | c :: rest, acc =>
      if isLineBreakChar c then acc.reverse :: pySplitlinesAux rest []
      else pySplitlinesAux rest (c :: acc)

/-- Python's `text.splitlines()`: split at line boundaries, no trailing
empty line for a trailing boundary. -/
def pySplitlines (s : PyStr) : List PyStr :=
  pySplitlinesAux s []

/-- Worker for `pySplit`; `cur` holds the current word, reversed. -/
def pySplitAux : PyStr → PyStr → List PyStr
  | [], cur => if cur.isEmpty then [] else [cur.reverse]
  | c :: rest, cur =>
      if pyIsSpace c then
        if cur.isEmpty then pySplitAux rest []
        else cur.reverse :: pySplitAux rest []
      else pySplitAux rest (c :: cur)

/-- Python's `line.split()` with no arguments: split on runs of
whitespace, discarding empty words. -/
def pySplit (s : PyStr) : List PyStr :=
  pySplitAux s []

/-- `needle in hay` for Python strings: substring containment. -/
def pyContainsSub (needle : PyStr) : PyStr → Bool
  | [] => needle.isEmpty
  | c :: rest => needle.isPrefixOf (c :: rest) || pyContainsSub needle rest

/-- `card.replace('-', '')`. -/
def removeHyphens (s : PyStr) : PyStr :=
  s.filter (fun c => c != '-')

/-- `s.lstrip('0')`. -/
def lstripZeros (s : PyStr) : PyStr :=
  s.dropWhile (fun c => c = '0')

/-- The section marker substring `'***Card Detail'` (line 118). -/
def cardMarker : PyStr := "***Card Detail".toList

/-- The section-terminator test of line 123:
`line.strip() == '' or line.startswith('_') or any(w in line for w in ['Invoice', 'Thank', 'see you'])`. -/
def isSectionEnd (line : PyStr) : Bool :=
  pyIsBlank line || line.head? = some '_' ||
  pyContainsSub "Invoice".toList line ||
  pyContainsSub "Thank".toList line ||
  pyContainsSub "see you".toList line

/-- The candidate test of line 126:
`any(char.isdigit() for char in line) and '-' in line`. -/
def isCardCandidate (line : PyStr) : Bool :=
  line.any pyIsDigit && line.contains '-'

/-- The tokens one in-section, non-terminating line contributes
(lines 126-132).  `card = line.split()[0]` is modelled with `headD []`;
the candidate guard makes the default unreachable (see the totality
theorem for C10).  The code computes `clean_card` before testing the
length guard, but appends `clean_card` only when the guard passes, which
is what this function returns. -/
def lineEmit (line : PyStr) : List PyStr :=
  if isCardCandidate line then
    let card := (pySplit line).headD []
    if 8 ≤ (removeHyphens card).length then [lstripZeros (removeHyphens card)]
    else []
  else []

/-- The scanning loop of `extract_card_numbers_from_text` (lines 114-133)
over the list of lines, carrying the `in_card_section` flag.  The marker
test of line 118 runs first on every line (with `continue`), then the
terminator test (with `break`), then the candidate/normalise block. -/
def scanLines : List PyStr → Bool → List PyStr
  | [], _ => []
  | line :: rest, inSection =>
    if pyContainsSub cardMarker line then scanLines rest true
    else if inSection then
      if isSectionEnd line then []
      else lineEmit line ++ scanLines rest true
    else scanLines rest false

/-- `extract_card_numbers_from_text` (lines 110-133). -/
def extract_card_numbers_from_text (text : PyStr) : List PyStr :=
  scanLines (pySplitlines text) false

/-- `list(dict.fromkeys(card_numbers))` (line 70): deduplicate keeping
the first occurrence of each string, in order. -/
def pyDictFromKeys (l : List PyStr) : List PyStr :=
  l.foldl (fun acc x => if acc.contains x then acc else acc ++ [x]) []

/-- The unique card numbers written for one document's text
(lines 68-70 of `pdf_to_text`). -/
def uniqueCardNumbers (text : PyStr) : List PyStr :=
  pyDictFromKeys (extract_card_numbers_from_text text)

/-- Specification-side statement of first-occurrence deduplication: keep
the head, delete its later duplicates, recurse.  Compared against the
code-side `pyDictFromKeys` in the theorem for C1. -/
def keepFirsts : List PyStr → List PyStr
  | [] => []
  | x :: xs => x :: keepFirsts (xs.filter (fun y => y != x))
termination_by l => l.length
decreasing_by
  simp only [List.length_cons]
  exact Nat.lt_succ_of_le (List.length_filter_le _ _)

/-! ## The extraction fallback chain and per-document loop of `pdf_to_text` -/

/-- The external collaborators of the extraction chain.  A document is
identified by its path (a `PyStr`).  `pymupdf` models
`extract_with_pymupdf` (lines 78-83), which may raise (`fitz.open` on a
corrupt file); `pdfminer` models `extract_with_pdfminer` (lines 85-91),
which catches every exception internally and returns `""`, so it never
raises; `ocr` models `extract_with_ocr` (lines 93-108), whose
`fitz.open` call is not guarded and may raise.  `pdfminerAvail` models
`if pdfminer:` (the module imported successfully); `ocrAvail` models
`pytesseract and Image`. -/
structure ExtractEnv where
  pymupdf : PyStr → Except Unit PyStr
  pdfminerAvail : Bool
  pdfminer : PyStr → PyStr
  ocrAvail : Bool
  ocr : PyStr → Except Unit PyStr

/-- Lines 53-61 of `pdf_to_text`: the `try`/`except` around the primary
(PyMuPDF) strategy with the pdfminer fallback.  Returns the value of
`text` afterwards together with whether the pdfminer fallback ran.
`text` is initialised to `""` (line 53), so when the primary raises and
pdfminer is unavailable the result is `""`. -/
def primarySecondary (env : ExtractEnv) (d : PyStr) : PyStr × Bool :=
  match env.pymupdf d with
  | Except.ok t =>
      if pyIsBlank t then
        if env.pdfminerAvail then (env.pdfminer d, true) else (t, false)
      else (t, false)
  | Except.error _ =>
      if env.pdfminerAvail then (env.pdfminer d, true) else ([], false)

/-- `True` when the primary strategy produced empty/whitespace-only text
or raised (the condition under which lines 56-61 fall through to the
fallback). -/
def primaryBlankOrRaised (env : ExtractEnv) (d : PyStr) : Bool :=
  match env.pymupdf d with
  | Except.ok t => pyIsBlank t
  | Except.error _ => true

/-- Lines 53-65 of `pdf_to_text`: the whole extraction chain for one
document.  Returns the final text (or the uncaught exception propagating
out of `extract_with_ocr`), whether the pdfminer fallback ran, and
whether the OCR strategy ran (line 64:
`if use_ocr and (not text.strip()) and pytesseract and Image`). -/
def extractStage (env : ExtractEnv) (useOcr : Bool) (d : PyStr) :
    Except Unit PyStr × Bool × Bool :=
  let ps := primarySecondary env d
  if useOcr && pyIsBlank ps.1 && env.ocrAvail then (env.ocr d, ps.2, true)
  else (Except.ok ps.1, ps.2, false)

/-- Lines 52-76 for one document: extract text, parse card numbers,
deduplicate.  The result is the list of lines of the output `.txt`
file, or the uncaught exception. -/
def processDoc (env : ExtractEnv) (useOcr : Bool) (d : PyStr) :
    Except Unit (List PyStr) :=
  (extractStage env useOcr d).1.map uniqueCardNumbers

/-- The `for pdf_file in pdf_files:` loop of `pdf_to_text` (lines 52-76).
Returns the `(document, output lines)` pairs actually written, and
`true` when the loop ran to completion.  An uncaught exception inside
the loop body propagates: the loop stops and no later document is
processed. -/
def runBatch (env : ExtractEnv) (useOcr : Bool) : List PyStr → List (PyStr × List PyStr) × Bool
  | [] => ([], true)
  | d :: ds =>
    match processDoc env useOcr d with
    | Except.ok out =>
        let r := runBatch env useOcr ds
        ((d, out) :: r.1, r.2)
    | Except.error _ => ([], false)

/-! ## The `PDFEventHandler` watcher callbacks -/

/-- `event.src_path.endswith('.pdf')`. -/
def endsWithPdf (p : PyStr) : Bool :=
  ".pdf".toList.isSuffixOf p

/-- `pathlib.Path(p).name`: the part of the path after the last `/`. -/
def pyBasename (p : PyStr) : PyStr :=
  (p.reverse.takeWhile (fun c => c != '/')).reverse

/-- `self.processed_files.add(x)` on a set modelled as a list:
membership-preserving insert. -/
def setAdd (st : List PyStr) (x : PyStr) : List PyStr :=
  if st.contains x then st else x :: st

/-- A filesystem event delivered by watchdog: created or modified, with
the directory flag and the source path. -/
inductive FsEvent where
  | created (isDir : Bool) (path : PyStr)
  | modified (isDir : Bool) (path : PyStr)
deriving DecidableEq

/-- `PDFEventHandler.on_created` (lines 149-163).  `ok path` tells
whether `pdf_to_text` succeeds on the file; the name is added to
`processed_files` only on success (line 160).  Returns the new state and
whether `pdf_to_text` was invoked (the file was (re)processed). -/
def on_created (ok : PyStr → Bool) (st : List PyStr) (isDir : Bool) (path : PyStr) :
    List PyStr × Bool :=
  if !isDir && endsWithPdf path then
    (if ok path then setAdd st (pyBasename path) else st, true)
  else (st, false)

/-- `PDFEventHandler.on_modified` (lines 165-172): delegates to
`on_created` only when the file name is not yet in `processed_files`. -/
def on_modified (ok : PyStr → Bool) (st : List PyStr) (isDir : Bool) (path : PyStr) :
    List PyStr × Bool :=
  if !isDir && endsWithPdf path then
    if !(st.contains (pyBasename path)) then on_created ok st isDir path
    else (st, false)
  else (st, false)

/-- Dispatch one event to the handler. -/
def handleEvent (ok : PyStr → Bool) (st : List PyStr) : FsEvent → List PyStr × Bool
  | FsEvent.created d p => on_created ok st d p
  | FsEvent.modified d p => on_modified ok st d p

/-- Run a watch session from state `st` over a list of events.  Returns
the final `processed_files` state and the paths for which
`pdf_to_text` was triggered, in order (with multiplicity). -/
def runSession (ok : PyStr → Bool) (st : List PyStr) : List FsEvent → List PyStr × List PyStr
  | [] => (st, [])
  | e :: es =>
    let r := handleEvent ok st e
    let s := runSession ok r.1 es
    (s.1, (if r.2 then [match e with | FsEvent.created _ p => p | FsEvent.modified _ p => p] else []) ++ s.2)

/-! ## Helper lemmas -/

/-- A whitespace character is not a digit. -/
lemma pyIsSpace_not_digit {c : Char} (h : pyIsSpace c = true) : pyIsDigit c = false := by
  unfold pyIsSpace at h
  simp only [Bool.or_eq_true, decide_eq_true_eq] at h
  rcases h with ((((h | h) | h) | h) | h) | h <;> subst h <;> decide

/-- A line containing a marker occurrence is skipped, turning the flag on. -/
lemma scanLines_cons_marker (line : PyStr) (rest : List PyStr) (b : Bool)
    (hm : pyContainsSub cardMarker line = true) :
    scanLines (line :: rest) b = scanLines rest true := by
  simp [scanLines, hm]

/-- In-section, a marker-free terminator line stops the scan with no
further output. -/
lemma scanLines_cons_end (line : PyStr) (rest : List PyStr)
    (hm : pyContainsSub cardMarker line = false) (ht : isSectionEnd line = true) :
    scanLines (line :: rest) true = [] := by
  simp [scanLines, hm, ht]

/-- In-section, a marker-free non-terminator line contributes
`lineEmit line` and the scan continues. -/
lemma scanLines_cons_cont (line : PyStr) (rest : List PyStr)
    (hm : pyContainsSub cardMarker line = false) (ht : isSectionEnd line = false) :
    scanLines (line :: rest) true = lineEmit line ++ scanLines rest true := by
  simp [scanLines, hm, ht]

/-- Out of section, a marker-free line is ignored. -/
lemma scanLines_cons_out (line : PyStr) (rest : List PyStr)
    (hm : pyContainsSub cardMarker line = false) :
    scanLines (line :: rest) false = scanLines rest false := by
  simp [scanLines, hm]

/-- On a candidate line, `lineEmit` emits the normalised first raw token
when the length guard passes. -/
lemma lineEmit_of_candidate (line : PyStr) (hc : isCardCandidate line = true) :
    lineEmit line =
      (if 8 ≤ (removeHyphens ((pySplit line).headD [])).length
       then [lstripZeros (removeHyphens ((pySplit line).headD []))] else []) := by
  simp [lineEmit, hc]

/-- Every character of every word of `pySplitAux s cur` comes from `s` or
from `cur`. -/
lemma mem_of_mem_pySplitAux {s cur t : PyStr} {c : Char}
    (ht : t ∈ pySplitAux s cur) (hc : c ∈ t) : c ∈ s ∨ c ∈ cur := by
  induction s generalizing cur with
  | nil =>
      unfold pySplitAux at ht
      by_cases he : cur.isEmpty <;> simp [he] at ht
      subst ht
      exact Or.inr (List.mem_reverse.mp hc)
  | cons d rest ih =>
      unfold pySplitAux at ht
      by_cases hd : pyIsSpace d
      · by_cases he : cur.isEmpty
        · simp [hd, he] at ht
          rcases ih ht with h | h
          · exact Or.inl (List.mem_cons_of_mem _ h)
          · simp at h
        · simp [hd, he] at ht
          rcases ht with ht | ht
          · subst ht
            exact Or.inr (List.mem_reverse.mp hc)
          · rcases ih ht with h | h
            · exact Or.inl (List.mem_cons_of_mem _ h)
            · simp at h
      · simp [hd] at ht
        rcases ih ht with h | h
        · exact Or.inl (List.mem_cons_of_mem _ h)
        · rcases List.mem_cons.mp h with h | h
          · exact Or.inl (h ▸ List.mem_cons_self _ _)
          · exact Or.inr h

/-- Every character of a word of `pySplit line` occurs in `line`. -/
lemma mem_of_mem_pySplit {line t : PyStr} {c : Char}
    (ht : t ∈ pySplit line) (hc : c ∈ t) : c ∈ line := by
  rcases mem_of_mem_pySplitAux ht hc with h | h
  · exact h
  · simp at h

/-- `pySplitAux` produces at least one word when the input holds a
non-whitespace character or a word is already being accumulated. -/
lemma pySplitAux_ne_nil {s cur : PyStr}
    (h : (∃ c ∈ s, pyIsSpace c = false) ∨ cur ≠ []) : pySplitAux s cur ≠ [] := by
  induction s generalizing cur with
  | nil =>
      rcases h with ⟨c, hc, _⟩ | h
      · exact absurd hc (List.not_mem_nil c)
      · unfold pySplitAux
        simp [List.isEmpty_iff, h]
  | cons d rest ih =>
      unfold pySplitAux
      by_cases hd : pyIsSpace d
      · by_cases he : cur.isEmpty
        · simp only [hd, if_true, he]
          apply ih
          rcases h with ⟨c, hc, hcs⟩ | h
          · rcases List.mem_cons.mp hc with rfl | hc
            · rw [hd] at hcs; cases hcs
            · exact Or.inl ⟨c, hc, hcs⟩
          · rw [List.isEmpty_iff] at he
            exact absurd he h
        · simp [hd, he]
      · simp only [hd, if_false]
        apply ih
        exact Or.inr (by simp)

/-- If no line of `lines` contains the marker, the scan that starts out
of section emits nothing. -/
lemma scanLines_of_no_marker {lines : List PyStr}
    (h : ∀ l ∈ lines, pyContainsSub cardMarker l = false) :
    scanLines lines false = [] := by
  induction lines with
  | nil => rfl
  | cons l rest ih =>
      rw [scanLines_cons_out l rest (h l (List.mem_cons_self l rest))]
      exact ih fun x hx => h x (List.mem_cons_of_mem l hx)

/-! ## Claim theorems: the section parser -/

/-- C10.  The parser is total: whenever a line passes the candidate check
of line 126 (it contains a digit character and a hyphen), the line is not
whitespace-only, so `line.split()` is non-empty and `line.split()[0]`
never fails. -/
theorem claim_C10_parser_total (line : PyStr) (hc : isCardCandidate line = true) :
    pyIsBlank line = false ∧ pySplit line ≠ [] := by
  unfold isCardCandidate at hc
  obtain ⟨c, hcl, hcd⟩ : ∃ c ∈ line, pyIsDigit c = true := by
    have := ((Bool.and_eq_true _ _).mp hc).1
    simpa using List.any_eq_true.mp this
  have hcs : pyIsSpace c = false := by
    cases h : pyIsSpace c
    · rfl
    · rw [pyIsSpace_not_digit h] at hcd; cases hcd
  refine ⟨?_, pySplitAux_ne_nil (Or.inl ⟨c, hcl, hcs⟩)⟩
  cases hb : pyIsBlank line
  · rfl
  · unfold pyIsBlank at hb
    have := List.all_eq_true.mp hb c hcl
    rw [this] at hcs
    cases hcs

/-- Witness for C10 at the concrete line `"1234-5678"`. -/
theorem claim_C10_witness :
    isCardCandidate "1234-5678".toList = true ∧
    (pyIsBlank "1234-5678".toList = false ∧ pySplit "1234-5678".toList ≠ []) :=
  ⟨by decide, claim_C10_parser_total _ (by decide)⟩

/-- C8.  If no line of the input text contains the marker substring
`"***Card Detail"`, the parser returns the empty list. -/
theorem claim_C8_no_marker_empty (text : PyStr)
    (h : ∀ l ∈ pySplitlines text, pyContainsSub cardMarker l = false) :
    extract_card_numbers_from_text text = [] :=
  scanLines_of_no_marker h

/-- Witness for C8 at the concrete text `"hello\nworld 1-2"`. -/
theorem claim_C8_witness :
    (∀ l ∈ pySplitlines "hello\nworld 1-2".toList, pyContainsSub cardMarker l = false) ∧
    extract_card_numbers_from_text "hello\nworld 1-2".toList = [] :=
  ⟨by decide, claim_C8_no_marker_empty _ (by decide)⟩

/-- C5.  A scanned in-section line that passes the candidate check
(contains a digit and a hyphen) contributes exactly as the claim states:
the raw card string is the first whitespace-delimited word of the line;
it is accepted iff the hyphen-stripped raw string has length ≥ 8; the
emitted token is the raw string with hyphens removed and leading zeros
stripped. -/
theorem claim_C5_line_normalisation (line : PyStr) (rest : List PyStr)
    (hm : pyContainsSub cardMarker line = false)
    (ht : isSectionEnd line = false)
    (hc : isCardCandidate line = true) :
    scanLines (line :: rest) true =
      (if 8 ≤ (removeHyphens ((pySplit line).headD [])).length
       then lstripZeros (removeHyphens ((pySplit line).headD [])) :: scanLines rest true
       else scanLines rest true) := by
  rw [scanLines_cons_cont line rest hm ht, lineEmit_of_candidate line hc]
  split <;> rfl

/-- Witness for C5 at the concrete line `"0000-0000-0000-5678 more"`. -/
theorem claim_C5_witness :
    pyContainsSub cardMarker "0000-0000-0000-5678 more".toList = false ∧
    isSectionEnd "0000-0000-0000-5678 more".toList = false ∧
    isCardCandidate "0000-0000-0000-5678 more".toList = true ∧
    scanLines ["0000-0000-0000-5678 more".toList] true =
      (if 8 ≤ (removeHyphens ((pySplit "0000-0000-0000-5678 more".toList).headD [])).length
       then lstripZeros (removeHyphens ((pySplit "0000-0000-0000-5678 more".toList).headD []))
          :: scanLines [] true
       else scanLines [] true) :=
  ⟨by decide, by decide, by decide,
    claim_C5_line_normalisation _ [] (by decide) (by decide) (by decide)⟩

/-- C6.  A scanned in-section line whose first whitespace-delimited word
is `"0000-0000"` makes the parser append the empty string: the
hyphen-stripped raw string `"00000000"` has length 8, so the guard
passes, and stripping leading zeros leaves nothing. -/
theorem claim_C6_empty_token (line : PyStr) (rest : List PyStr)
    (h0 : (pySplit line).headD [] = "0000-0000".toList)
    (hm : pyContainsSub cardMarker line = false)
    (ht : isSectionEnd line = false) :
    scanLines (line :: rest) true = [] :: scanLines rest true := by
  have hne : pySplit line ≠ [] := by
    intro hnil
    rw [hnil] at h0
    exact absurd h0 (by decide)
  have hmem : "0000-0000".toList ∈ pySplit line := by
    rw [← h0]
    cases h : pySplit line with
    | nil => exact absurd h hne
    | cons w ws => simp
  have hzero : '0' ∈ line := mem_of_mem_pySplit hmem (by decide)
  have hhyph : '-' ∈ line := mem_of_mem_pySplit hmem (by decide)
  have hc : isCardCandidate line = true := by
    unfold isCardCandidate
    refine (Bool.and_eq_true _ _).mpr ⟨List.any_eq_true.mpr ⟨'0', hzero, by decide⟩, ?_⟩
    simp [List.contains, hhyph]
  rw [scanLines_cons_cont line rest hm ht, lineEmit_of_candidate line hc, h0]
  have hval : (if 8 ≤ (removeHyphens "0000-0000".toList).length
      then [lstripZeros (removeHyphens "0000-0000".toList)] else []) = [([] : PyStr)] := by
    decide
  rw [hval]
  rfl

/-- Witness for C6 at the concrete line `"0000-0000"`. -/
theorem claim_C6_witness :
    (pySplit "0000-0000".toList).headD [] = "0000-0000".toList ∧
    pyContainsSub cardMarker "0000-0000".toList = false ∧
    isSectionEnd "0000-0000".toList = false ∧
    scanLines ["0000-0000".toList, "1111-2222".toList] true
      = [] :: scanLines ["1111-2222".toList] true :=
  ⟨by decide, by decide, by decide,
    claim_C6_empty_token _ _ (by decide) (by decide) (by decide)⟩

/-- C7.  While in-section, a (marker-free) line terminates the section —
the scan stops and every remaining line is discarded — exactly when the
line is empty/whitespace-only, or starts with `'_'`, or contains one of
`"Invoice"`, `"Thank"`, `"see you"`; a non-terminator line is scanned and
the loop continues with the rest.  On the concrete input lines
`["***Card Detail(s)***", "1234-5678", "", "9999-0000"]` the output is
`["12345678"]` only. -/
theorem claim_C7_section_termination :
    (∀ line rest, pyContainsSub cardMarker line = false →
      (((pyIsBlank line || line.head? = some '_' ||
         pyContainsSub "Invoice".toList line ||
         pyContainsSub "Thank".toList line ||
         pyContainsSub "see you".toList line) = true →
           scanLines (line :: rest) true = []) ∧
       ((pyIsBlank line || line.head? = some '_' ||
         pyContainsSub "Invoice".toList line ||
         pyContainsSub "Thank".toList line ||
         pyContainsSub "see you".toList line) = false →
           scanLines (line :: rest) true = lineEmit line ++ scanLines rest true))) ∧
    extract_card_numbers_from_text "***Card Detail(s)***\n1234-5678\n\n9999-0000".toList
      = ["12345678".toList] := by
  refine ⟨fun line rest hm => ⟨fun ht => ?_, fun ht => ?_⟩, by decide⟩
  · exact scanLines_cons_end line rest hm ht
  · exact scanLines_cons_cont line rest hm ht

/-- Witness for C7: both directions of the termination test at concrete
lines (`""` terminates, `"1234-5678"` continues). -/
theorem claim_C7_witness :
    pyContainsSub cardMarker [] = false ∧
    scanLines [[], "9999-0000".toList] true = [] ∧
    pyContainsSub cardMarker "1234-5678".toList = false ∧
    scanLines ["1234-5678".toList] true = lineEmit "1234-5678".toList ++ scanLines [] true :=
  ⟨by decide,
    (claim_C7_section_termination.1 [] ["9999-0000".toList] (by decide)).1 (by decide),
    by decide,
    (claim_C7_section_termination.1 "1234-5678".toList [] (by decide)).2 (by decide)⟩

/-! ## Deduplication -/

/-- Everything in `keepFirsts l` comes from `l`. -/
lemma mem_of_mem_keepFirsts {l : List PyStr} {y : PyStr} (h : y ∈ keepFirsts l) : y ∈ l := by
  induction l using keepFirsts.induct with
  | case1 => simp [keepFirsts] at h
  | case2 x xs ih =>
      rw [keepFirsts] at h
      rcases List.mem_cons.mp h with rfl | h
      · exact List.mem_cons_self _ _
      · exact List.mem_cons_of_mem _ (List.mem_of_mem_filter (ih h))

/-- `keepFirsts` produces a list without duplicates. -/
lemma keepFirsts_nodup (l : List PyStr) : (keepFirsts l).Nodup := by
  induction l using keepFirsts.induct with
  | case1 => simp [keepFirsts]
  | case2 x xs ih =>
      rw [keepFirsts]
      refine List.nodup_cons.mpr ⟨fun hx => ?_, ih⟩
      have := mem_of_mem_keepFirsts hx
      simp [List.mem_filter] at this

/-- The insert-if-absent fold of `dict.fromkeys`, run from an arbitrary
accumulator, appends exactly the first occurrences of the elements not
already in the accumulator. -/
lemma foldl_dedup_eq_keepFirsts (l : List PyStr) :
    ∀ acc : List PyStr,
      l.foldl (fun acc x => if acc.contains x then acc else acc ++ [x]) acc
        = acc ++ keepFirsts (l.filter (fun y => !acc.contains y)) := by
  induction l with
  | nil => intro acc; simp [keepFirsts]
  | cons x xs ih =>
      intro acc
      rw [List.foldl_cons]
      by_cases hx : acc.contains x
      · have hmem : x ∈ acc := List.elem_iff.mp hx
        rw [if_pos hx, ih]
        have hfil : (x :: xs).filter (fun y => !acc.contains y)
            = xs.filter (fun y => !acc.contains y) := by
          rw [List.filter_cons]
          simp [hmem]
        rw [hfil]
      · have hnmem : x ∉ acc := fun hmem => hx (List.elem_iff.mpr hmem)
        rw [if_neg hx, ih]
        have hfil : (x :: xs).filter (fun y => !acc.contains y)
            = x :: xs.filter (fun y => !acc.contains y) := by
          rw [List.filter_cons]
          simp [hnmem]
        have hswap : xs.filter (fun y => !(acc ++ [x]).contains y)
            = (xs.filter (fun y => !acc.contains y)).filter (fun y => y != x) := by
          rw [List.filter_filter]
          apply List.filter_congr
          intro y _
          show (!(acc ++ [x]).contains y) = ((y != x) && !acc.contains y)
          by_cases hy : y ∈ acc <;> by_cases hyx : y = x <;>
            simp [List.contains, bne, hy, hyx]
        rw [hfil, hswap]
        rw [keepFirsts]
        simp [List.append_assoc]

/-- C1.  The unique-card-number pipeline (parse, then
`list(dict.fromkeys(...))`) returns a list with no duplicate tokens which
is the first-occurrence deduplication — under exact string equality — of
the parser's raw output. -/
theorem claim_C1_dedup_first_occurrence (text : PyStr) :
    (uniqueCardNumbers text).Nodup ∧
    uniqueCardNumbers text = keepFirsts (extract_card_numbers_from_text text) := by
  have key : uniqueCardNumbers text = keepFirsts (extract_card_numbers_from_text text) := by
    unfold uniqueCardNumbers pyDictFromKeys
    rw [foldl_dedup_eq_keepFirsts]
    simp
  exact ⟨key ▸ keepFirsts_nodup _, key⟩

/-! ## Shape of emitted tokens (C4) -/

/-- Any token `lineEmit` emits is a hyphen-removed, zero-stripped word. -/
lemma lineEmit_shape {line tok : PyStr} (h : tok ∈ lineEmit line) :
    ∃ card, tok = lstripZeros (removeHyphens card) := by
  unfold lineEmit at h
  by_cases hc : isCardCandidate line
  · rw [if_pos hc] at h
    by_cases h8 : 8 ≤ (removeHyphens ((pySplit line).headD [])).length
    · simp only [h8, if_true] at h
      exact ⟨_, List.mem_singleton.mp h⟩
    · simp at h
      exact ⟨_, h.2⟩
  · rw [if_neg hc] at h
    simp at h

/-- Any token the scan emits is a hyphen-removed, zero-stripped word. -/
lemma scanLines_shape {lines : List PyStr} {b : Bool} {tok : PyStr}
    (h : tok ∈ scanLines lines b) : ∃ card, tok = lstripZeros (removeHyphens card) := by
  induction lines generalizing b with
  | nil => simp [scanLines] at h
  | cons line rest ih =>
      by_cases hm : pyContainsSub cardMarker line
      · rw [scanLines_cons_marker line rest b hm] at h
        exact ih h
      · have hm' : pyContainsSub cardMarker line = false := by
          cases hh : pyContainsSub cardMarker line
          · rfl
          · exact absurd hh hm
        cases b with
        | false =>
            rw [scanLines_cons_out line rest hm'] at h
            exact ih h
        | true =>
            by_cases ht : isSectionEnd line
            · rw [scanLines_cons_end line rest hm' ht] at h
              simp at h
            · have ht' : isSectionEnd line = false := by
                cases hh : isSectionEnd line
                · rfl
                · exact absurd hh ht
              rw [scanLines_cons_cont line rest hm' ht'] at h
              rcases List.mem_append.mp h with h | h
              · exact lineEmit_shape h
              · exact ih h

/-- The result of `lstrip('0')` never starts with `'0'`. -/
lemma lstripZeros_head_ne (s : PyStr) : (lstripZeros s).head? ≠ some '0' := by
  unfold lstripZeros
  induction s with
  | nil => simp
  | cons c cs ih =>
      rw [List.dropWhile_cons]
      by_cases hc : c = '0'
      · simpa [hc] using ih
      · simp [hc]

/-- The result of `replace('-','')` contains no hyphen. -/
lemma hyphen_not_mem_removeHyphens (s : PyStr) : '-' ∉ removeHyphens s := by
  intro h
  have := List.mem_filter.mp h
  simp at this

/-- C4 counterexample.  On the in-section line `"abcdefgh- 5"` (which
contains a digit and a hyphen, and whose hyphen-stripped first word has
length 8) the parser emits `"abcdefgh"`, which is not a digit string. -/
theorem claim_C4_counterexample :
    extract_card_numbers_from_text "***Card Detail\nabcdefgh- 5".toList
      = ["abcdefgh".toList] ∧
    ("abcdefgh".toList).all pyIsDigit = false :=
  ⟨by decide, by decide⟩

/-- C4 amended.  Every token the parser emits is the first word of some
line with all hyphens removed and leading zeros stripped; consequently it
contains no hyphen and does not start with `'0'` — but it need not
consist of digit characters. -/
theorem claim_C4_amended (text tok : PyStr)
    (h : tok ∈ extract_card_numbers_from_text text) :
    '-' ∉ tok ∧ tok.head? ≠ some '0' := by
  obtain ⟨card, rfl⟩ := scanLines_shape h
  exact ⟨fun hm => hyphen_not_mem_removeHyphens card ((List.dropWhile_sublist _).subset hm),
         lstripZeros_head_ne _⟩

/-- Witness for the amended C4 at a concrete text. -/
theorem claim_C4_witness :
    "12345678".toList ∈ extract_card_numbers_from_text "***Card Detail\n1234-5678".toList ∧
    ('-' ∉ "12345678".toList ∧ ("12345678".toList).head? ≠ some '0') :=
  ⟨by decide,
    claim_C4_amended ("***Card Detail\n1234-5678".toList) ("12345678".toList) (by decide)⟩

/-! ## Batch behaviour (C2, C3) -/

/-- An environment with a corrupt document: on `"corrupt.pdf"` the
PyMuPDF extractor raises (so does the unguarded `fitz.open` inside
`extract_with_ocr`); pdfminer is installed and returns `""`; the OCR
toolchain is installed.  Every other document extracts embedded text
containing a card section. -/
def envOcrRaises : ExtractEnv where
  pymupdf := fun d =>
    if d = "corrupt.pdf".toList then Except.error ()
    else Except.ok "***Card Detail\n1234-5678".toList
  pdfminerAvail := true
  pdfminer := fun _ => []
  ocrAvail := true
  ocr := fun _ => Except.error ()

/-- C2 (code bug evidence).  With `use_ocr = True` and the OCR toolchain
installed, a corrupt first document makes the whole batch halt: the
exception raised by `extract_with_ocr` propagates out of the per-document
loop, so the valid second document produces no output — although the same
valid document alone would produce its output file. -/
theorem claim_C2_batch_not_isolated :
    runBatch envOcrRaises true ["corrupt.pdf".toList, "valid.pdf".toList] = ([], false) ∧
    runBatch envOcrRaises true ["valid.pdf".toList]
      = ([("valid.pdf".toList, ["12345678".toList])], true) :=
  ⟨rfl, rfl⟩

/-- An environment where the primary extractor succeeds with empty text
and the pdfminer fallback is NOT installed. -/
def envNoMiner : ExtractEnv where
  pymupdf := fun _ => Except.ok []
  pdfminerAvail := false
  pdfminer := fun _ => []
  ocrAvail := false
  ocr := fun _ => Except.ok []

/-- C3 counterexample.  Two concrete refutations of the claim as stated:
with pdfminer unavailable, the primary strategy produces empty text yet
the secondary strategy does not run (the claimed "if and only if" fails,
because availability of the fallback library is also required); and in
`envOcrRaises` the OCR strategy's failure on `"corrupt.pdf"` is fatal to
the document (the uncaught exception escapes), refuting "no strategy's
failure is fatal". -/
theorem claim_C3_counterexample :
    (primaryBlankOrRaised envNoMiner "doc.pdf".toList = true ∧
     (extractStage envNoMiner true "doc.pdf".toList).2.1 = false) ∧
    (extractStage envOcrRaises true "corrupt.pdf".toList).1 = Except.error () :=
  ⟨⟨rfl, rfl⟩, rfl⟩

/-- The pdfminer fallback runs exactly when the primary strategy produced
blank text or raised AND pdfminer is available. -/
lemma primarySecondary_ran (env : ExtractEnv) (d : PyStr) :
    (primarySecondary env d).2 = (primaryBlankOrRaised env d && env.pdfminerAvail) := by
  unfold primarySecondary primaryBlankOrRaised
  cases env.pymupdf d with
  | ok t =>
      by_cases hb : pyIsBlank t <;> by_cases hp : env.pdfminerAvail <;> simp [hb, hp]
  | error e =>
      by_cases hp : env.pdfminerAvail <;> simp [hp]

/-- C3 amended.  The strategies are gated as follows: the secondary
(pdfminer) fallback runs iff the primary produced empty/whitespace-only
text or raised AND the fallback library is available; the tertiary OCR
strategy runs iff `use_ocr` is enabled AND the text is still
empty/whitespace-only AND the OCR toolchain is available; failures of the
primary and secondary strategies are never fatal to the document, but an
exception raised by the OCR strategy propagates (the extraction result is
an error exactly when the OCR strategy ran and raised). -/
theorem claim_C3_amended_gating (env : ExtractEnv) (useOcr : Bool) (d : PyStr) :
    (extractStage env useOcr d).2.1
      = (primaryBlankOrRaised env d && env.pdfminerAvail) ∧
    (extractStage env useOcr d).2.2
      = (useOcr && pyIsBlank (primarySecondary env d).1 && env.ocrAvail) ∧
    ((extractStage env useOcr d).1 = Except.error () ↔
      (extractStage env useOcr d).2.2 = true ∧ env.ocr d = Except.error ()) := by
  unfold extractStage
  by_cases hcond : useOcr && pyIsBlank (primarySecondary env d).1 && env.ocrAvail
  · simp only [hcond, if_true]
    refine ⟨primarySecondary_ran env d, trivial, ?_⟩
    cases h : env.ocr d with
    | ok t => simp [h]
    | error e => simp [h]
  · have hcond' : (useOcr && pyIsBlank (primarySecondary env d).1 && env.ocrAvail) = false := by
      cases h : (useOcr && pyIsBlank (primarySecondary env d).1 && env.ocrAvail)
      · rfl
      · exact absurd h hcond
    simp only [hcond', Bool.false_eq_true, if_false]
    exact ⟨primarySecondary_ran env d, trivial, by simp⟩

/-! ## Watcher behaviour (C9) -/

/-- Processing always succeeds (used for concrete watcher runs). -/
def okAll : PyStr → Bool := fun _ => true

/-- C9 counterexample.  Two consecutive `created` events for the same
file name both trigger processing: `on_created` has no
`processed_files` guard, so a name that was just processed (and recorded
in WatchState) is reprocessed by the next create event — the claimed
"exactly once per distinct file name" fails. -/
theorem claim_C9_counterexample :
    (runSession okAll []
      [FsEvent.created false "a.pdf".toList, FsEvent.created false "a.pdf".toList]).2
      = ["a.pdf".toList, "a.pdf".toList] :=
  rfl

/-- C9 amended.  The one-shot-per-name guard applies to modify events
only: a modify event for a name already in `processed_files` never
triggers processing (and leaves the state unchanged), while a create
event for a non-directory `.pdf` path always triggers processing,
regardless of `processed_files`. -/
theorem claim_C9_amended_modify_guard (ok : PyStr → Bool) (st : List PyStr)
    (isDir : Bool) (path : PyStr) :
    (st.contains (pyBasename path) = true → on_modified ok st isDir path = (st, false)) ∧
    (isDir = false → endsWithPdf path = true → (on_created ok st isDir path).2 = true) := by
  constructor
  · intro hmem
    unfold on_modified
    by_cases hp : (!isDir && endsWithPdf path) = true
    · rw [if_pos hp, hmem]
      simp
    · rw [if_neg hp]
  · intro hdir hpdf
    subst hdir
    unfold on_created
    simp [hpdf]

/-- Witness for the amended C9 at concrete inputs: a modify event for the
already-processed `"a.pdf"` does not trigger; a create event for
`"b.pdf"` triggers. -/
theorem claim_C9_witness :
    (["a.pdf".toList] : List PyStr).contains (pyBasename "a.pdf".toList) = true ∧
    on_modified okAll ["a.pdf".toList] false "a.pdf".toList = (["a.pdf".toList], false) ∧
    endsWithPdf "b.pdf".toList = true ∧
    (on_created okAll [] false "b.pdf".toList).2 = true :=
  ⟨by decide,
    (claim_C9_amended_modify_guard okAll ["a.pdf".toList] false "a.pdf".toList).1 (by decide),
    by decide,
    (claim_C9_amended_modify_guard okAll [] false "b.pdf".toList).2 rfl (by decide)⟩

example : pySplitlines "a\nb\r\nc\n".toList = ["a".toList, "b".toList, "c".toList] := by decide
example : pySplit "  12-34  x ".toList = ["12-34".toList, "x".toList] := by decide
example : pyContainsSub "see you".toList "xx see you yy".toList = true := by decide
example : extract_card_numbers_from_text "***Card Detail(s)***\n1234-5678\n\n9999-0000".toList
    = ["12345678".toList] := by decide
example : extract_card_numbers_from_text "***Card Detail\n0000-0000".toList = [[]] := by decide
example : pyDictFromKeys ["1234".toList, "5678".toList, "1234".toList]
    = ["1234".toList, "5678".toList] := by decide
example : keepFirsts ["1234".toList, "5678".toList, "1234".toList]
    = ["1234".toList, "5678".toList] := by simp [keepFirsts]
